import Mathlib

/-!
# Verification of the certquest quiz session engine

A shallow embedding of the quiz session lifecycle of the certquest
repository: the Express routes `POST /api/quiz/start`,
`POST /api/quiz/answer`, `POST /api/quiz/:sessionId/complete`,
`GET /api/topics/:topicId/questions`, `GET /api/progress/:certificationId`
(server routes file), together with the `DatabaseStorage` methods they call
(`src/server/storage.ts`).

The relational store is modelled as lists of rows inside a `Store`
structure; each storage method becomes a pure function on `Store`.
Database-generated UUIDs are modelled by a `nextId` counter (ids are
opaque, only equality matters).  JavaScript numbers that may be `NaN` or
`Infinity` (the score computed by `Math.round((correctCount /
totalQuestions) * 100)`) are modelled by the type `JsNum`.
Timestamps (`new Date()`) are `Nat` parameters threaded into the handlers.
-/

/-- A JavaScript number as produced by the score computation: a
non-negative integer, `NaN`, or `Infinity`. -/
inductive JsNum where
  | nan : JsNum
  | inf : JsNum
  | int : Nat → JsNum
deriving DecidableEq, Repr

/-- `Math.round((c / t) * 100)` for non-negative integers `c`, `t` under
JavaScript semantics: `0/0` is `NaN`, `c/0` with `c > 0` is `Infinity`,
otherwise the quotient is rounded half up, i.e. `⌊(100*c)/t + 1/2⌋ =
(200*c + t) / (2*t)` in integer division. -/
def jsRoundPct (c t : Nat) : JsNum :=
  if t = 0 then (if c = 0 then JsNum.nan else JsNum.inf)
  else JsNum.int ((200 * c + t) / (2 * t))

/-- A row of the `topics` table (fields the engine consults). -/
structure Topic where
  id : String
  certificationId : String
  orderIndex : Nat
  isActive : Bool
deriving DecidableEq, Repr

/-- A row of the `questions` table. -/
structure Question where
  id : String
  topicId : String
  text : String
  options : List String
  correctAnswer : Nat
  explanation : String
  isActive : Bool
deriving DecidableEq, Repr

/-- A row of the `quizSessions` table. -/
structure QuizSession where
  id : Nat
  userId : String
  topicId : String
  currentQuestionIndex : Nat
  answers : List (String × Nat)
  startedAt : Nat
  completedAt : Option Nat
  score : Option JsNum
  isActive : Bool
deriving DecidableEq, Repr

/-- A row of the `userAnswers` table. -/
structure UserAnswer where
  userId : String
  questionId : String
  sessionId : Nat
  selectedAnswer : Nat
  isCorrect : Bool
  timeSpent : Nat
  answeredAt : Nat
deriving DecidableEq, Repr

/-- A row of the `userProgress` table.  `bestScore` is a `JsNum` because
the route hands it the possibly-`NaN` session score. -/
structure UserProgress where
  id : Nat
  userId : String
  certificationId : String
  topicId : String
  totalQuestions : Nat
  completedQuestions : Nat
  correctAnswers : Nat
  bestScore : JsNum
  lastQuestionIndex : Nat
  isCompleted : Bool
  timeSpent : Nat
deriving DecidableEq, Repr

/-- The values the complete route passes to `upsertUserProgress`
(`InsertUserProgress` in `storage.ts`, without the generated id). -/
structure InsertUserProgress where
  userId : String
  certificationId : String
  topicId : String
  totalQuestions : Nat
  completedQuestions : Nat
  correctAnswers : Nat
  bestScore : JsNum
  lastQuestionIndex : Nat
  isCompleted : Bool
  timeSpent : Nat
deriving DecidableEq, Repr

/-- The relational store: one list of rows per table, plus the id
generator for database-generated primary keys. -/
structure Store where
  topics : List Topic
  questions : List Question
  sessions : List QuizSession
  userAnswers : List UserAnswer
  progress : List UserProgress
  nextId : Nat
deriving DecidableEq, Repr

namespace Store

/-- `DatabaseStorage.getTopic`: select by id, limit 1 (no active filter). -/
def getTopic (s : Store) (id : String) : Option Topic :=
  s.topics.find? (fun t => t.id == id)

/-- `DatabaseStorage.getQuestionsByTopic`: select where `topicId` matches
and `isActive`. -/
def getQuestionsByTopic (s : Store) (topicId : String) : List Question :=
  s.questions.filter (fun q => q.topicId == topicId && q.isActive)

/-- `DatabaseStorage.getQuestion`: select by id, limit 1. -/
def getQuestion (s : Store) (id : String) : Option Question :=
  s.questions.find? (fun q => q.id == id)

/-- The first element of largest `startedAt`, modelling
`orderBy(desc(startedAt)).limit(1)` over an unordered result set. -/
def latestBy : List QuizSession → Option QuizSession
  | [] => none
  | a :: as => some (as.foldl (fun b c => if b.startedAt < c.startedAt then c else b) a)

/-- `DatabaseStorage.getActiveQuizSession`: select where user, topic and
`isActive` match, newest `startedAt` first, limit 1. -/
def getActiveQuizSession (s : Store) (userId topicId : String) : Option QuizSession :=
  latestBy (s.sessions.filter
    (fun q => q.userId == userId && q.topicId == topicId && q.isActive))

/-- A freshly inserted `quizSessions` row.  The route supplies `userId`,
`topicId`, `currentQuestionIndex = 0` and the empty `answers` map; the
remaining columns take the defaults of the shared drizzle schema's
`pgTable("quiz_sessions", ...)`: `startedAt: defaultNow()`,
`isActive: default(true)`, and `completedAt`/`score` nullable with no
default (NULL, modelled as `none`). -/
def newSessionRow (id : Nat) (userId topicId : String) (now : Nat) : QuizSession :=
  { id := id, userId := userId, topicId := topicId
    currentQuestionIndex := 0, answers := []
    startedAt := now, completedAt := none, score := none, isActive := true }

/-- `DatabaseStorage.createQuizSession`: insert a new row with the values
the route supplies and the schema defaults (see `newSessionRow`). -/
def createQuizSession (s : Store) (userId topicId : String) (now : Nat) :
    QuizSession × Store :=
  let row := newSessionRow s.nextId userId topicId now
  (row, { s with sessions := s.sessions ++ [row], nextId := s.nextId + 1 })

/-- `DatabaseStorage.updateQuizSession` at its only call site: set
`currentQuestionIndex` on the rows whose id matches and return the first
updated row (`returning()[0]`). -/
def updateQuizSession (s : Store) (sessionId : Nat) (newIndex : Nat) :
    Option QuizSession × Store :=
  let upd := s.sessions.map (fun row =>
    if row.id == sessionId then { row with currentQuestionIndex := newIndex } else row)
  (upd.find? (fun row => row.id == sessionId), { s with sessions := upd })

/-- `DatabaseStorage.completeQuizSession`: set `completedAt`, `score`,
`isActive = false` on the rows whose id matches; return the first updated
row, or `none` when no row matched. -/
def completeQuizSession (s : Store) (sessionId : Nat) (score : JsNum) (now : Nat) :
    Option QuizSession × Store :=
  let upd := s.sessions.map (fun row =>
    if row.id == sessionId then
      { row with completedAt := some now, score := some score, isActive := false }
    else row)
  (upd.find? (fun row => row.id == sessionId), { s with sessions := upd })

/-- `DatabaseStorage.saveUserAnswer`: insert a row. -/
def saveUserAnswer (s : Store) (a : UserAnswer) : Store :=
  { s with userAnswers := s.userAnswers ++ [a] }

/-- `DatabaseStorage.getUserAnswers`: select where `sessionId` matches,
ordered by `answeredAt` ascending. -/
def getUserAnswers (s : Store) (sessionId : Nat) : List UserAnswer :=
  List.insertionSort (fun a b => a.answeredAt ≤ b.answeredAt)
    (s.userAnswers.filter (fun a => a.sessionId == sessionId))

/-- `DatabaseStorage.getUserProgress`: select where user and
certification match. -/
def getUserProgress (s : Store) (userId certificationId : String) : List UserProgress :=
  s.progress.filter
    (fun r => r.userId == userId && r.certificationId == certificationId)

/-- `DatabaseStorage.getTopicProgress`: select where user and topic
match, limit 1. -/
def getTopicProgress (s : Store) (userId topicId : String) : Option UserProgress :=
  s.progress.find? (fun r => r.userId == userId && r.topicId == topicId)

/-- The row produced by spreading an `InsertUserProgress` over the
existing row `id` (`set({ ...progress })` on update, `values(progress)`
on insert). -/
def applyProgress (id : Nat) (p : InsertUserProgress) : UserProgress :=
  { id := id, userId := p.userId, certificationId := p.certificationId
    topicId := p.topicId, totalQuestions := p.totalQuestions
    completedQuestions := p.completedQuestions, correctAnswers := p.correctAnswers
    bestScore := p.bestScore, lastQuestionIndex := p.lastQuestionIndex
    isCompleted := p.isCompleted, timeSpent := p.timeSpent }

/-- `DatabaseStorage.upsertUserProgress`: look up the `(userId, topicId)`
row; if present overwrite all its fields with `p` (keeping its id), else
insert a new row. -/
def upsertUserProgress (s : Store) (p : InsertUserProgress) : Store :=
  match s.getTopicProgress p.userId p.topicId with
  | some existing =>
      { s with progress := s.progress.map (fun row =>
          if row.id == existing.id then applyProgress row.id p else row) }
  | none =>
      { s with progress := s.progress ++ [applyProgress s.nextId p]
               nextId := s.nextId + 1 }

end Store

/-- Result of `POST /api/quiz/start`: HTTP 200 with the existing session,
or HTTP 201 with the newly created one. -/
inductive StartResult where
  | resumed : QuizSession → StartResult
  | created : QuizSession → StartResult
deriving DecidableEq, Repr

/-- The session carried by either start outcome. -/
def StartResult.session : StartResult → QuizSession
  | .resumed s => s
  | .created s => s

/-- `POST /api/quiz/start`: resume the active session for
`(userId, topicId)` if one exists, else create a new one.  The route
performs no Topic lookup of any kind. -/
def startQuiz (s : Store) (userId topicId : String) (now : Nat) :
    StartResult × Store :=
  match s.getActiveQuizSession userId topicId with
  | some existing => (StartResult.resumed existing, s)
  | none =>
      let (row, s') := s.createQuizSession userId topicId now
      (StartResult.created row, s')

/-- Result of `POST /api/quiz/answer`: 404 when the question id resolves
to no row, else the reveal payload (the session is `none` when the
session update matched no row). -/
inductive SubmitResult where
  | questionNotFound : SubmitResult
  | ok : Bool → Nat → String → Option QuizSession → SubmitResult
deriving DecidableEq, Repr

/-- The `isCorrect` field of a successful submit response. -/
def SubmitResult.isCorrect : SubmitResult → Option Bool
  | .questionNotFound => none
  | .ok b _ _ _ => some b

/-- `POST /api/quiz/answer`: fetch the question, derive `isCorrect`,
insert the `UserAnswer` row, then set the session cursor to the count of
answer rows for the session.  `timeSpent` defaults to 0 when absent. -/
def submitAnswer (s : Store) (userId questionId : String) (sessionId : Nat)
    (selectedAnswer : Nat) (timeSpent : Option Nat) (now : Nat) :
    SubmitResult × Store :=
  match s.getQuestion questionId with
  | none => (SubmitResult.questionNotFound, s)
  | some q =>
      let correct := selectedAnswer == q.correctAnswer
      let s1 := s.saveUserAnswer
        { userId := userId, questionId := questionId, sessionId := sessionId
          selectedAnswer := selectedAnswer, isCorrect := correct
          timeSpent := timeSpent.getD 0, answeredAt := now }
      let (sess, s2) := s1.updateQuizSession sessionId (s1.getUserAnswers sessionId).length
      (SubmitResult.ok correct q.correctAnswer q.explanation sess, s2)

/-- Result of `POST /api/quiz/:sessionId/complete`: 404 when the session
update matched no row, else the completed session with score,
correct count, total and the answer rows. -/
inductive CompleteResult where
  | sessionNotFound : CompleteResult
  | ok : QuizSession → JsNum → Nat → Nat → List UserAnswer → CompleteResult
deriving DecidableEq, Repr

/-- The `score` field of a successful completion response. -/
def CompleteResult.score : CompleteResult → Option JsNum
  | .sessionNotFound => none
  | .ok _ sc _ _ _ => some sc

/-- The `correctCount` field of a successful completion response. -/
def CompleteResult.correctCount : CompleteResult → Option Nat
  | .sessionNotFound => none
  | .ok _ _ c _ _ => some c

/-- The `totalQuestions` field of a successful completion response. -/
def CompleteResult.totalQuestions : CompleteResult → Option Nat
  | .sessionNotFound => none
  | .ok _ _ _ t _ => some t

/-- `POST /api/quiz/:sessionId/complete`: score the recorded answers,
mark the session completed, then upsert the progress row.  The
certification id is the hardcoded string `'aws-cloud-practitioner'`
(the route's `// TODO: Get from topic`); the topic's certification is
never read. -/
def completeQuiz (s : Store) (userId : String) (sessionId : Nat) (now : Nat) :
    CompleteResult × Store :=
  let answers := s.getUserAnswers sessionId
  let correctCount := (answers.filter (fun a => a.isCorrect)).length
  let totalQuestions := answers.length
  let score := jsRoundPct correctCount totalQuestions
  let res := s.completeQuizSession sessionId score now
  match res.1 with
  | none => (CompleteResult.sessionNotFound, res.2)
  | some session =>
      let totalTimeSpent := answers.foldl (fun sum a => sum + a.timeSpent) 0
      let s2 := res.2.upsertUserProgress
        { userId := userId, certificationId := "aws-cloud-practitioner"
          topicId := session.topicId, totalQuestions := totalQuestions
          completedQuestions := totalQuestions, correctAnswers := correctCount
          bestScore := score, lastQuestionIndex := totalQuestions
          isCompleted := true, timeSpent := totalTimeSpent }
      (CompleteResult.ok session score correctCount totalQuestions answers, s2)

/-- The question shape returned by `GET /api/topics/:topicId/questions`:
the row spread with `correctAnswer: undefined, explanation: undefined`
(`res.json` omits keys whose value is `undefined`). -/
structure QuestionResponse where
  id : String
  topicId : String
  text : String
  options : List String
  correctAnswer : Option Nat
  explanation : Option String
  isActive : Bool
deriving DecidableEq, Repr

/-- `GET /api/topics/:topicId/questions`: the active questions of the
topic with the sensitive fields blanked. -/
def listQuestions (s : Store) (topicId : String) : List QuestionResponse :=
  (s.getQuestionsByTopic topicId).map (fun q =>
    { id := q.id, topicId := q.topicId, text := q.text, options := q.options
      correctAnswer := none, explanation := none, isActive := q.isActive })

/-! ## Concrete fixtures for witnesses and counterexamples -/

/-- A topic of the demo world (slug ids, as in the seeded content). -/
def topicIam : Topic :=
  { id := "iam", certificationId := "aws-solutions-architect", orderIndex := 0, isActive := true }

/-- A question whose correct option is index 2. -/
def qOne : Question :=
  { id := "q1", topicId := "iam", text := "What is IAM?"
    options := ["a", "b", "c"], correctAnswer := 2
    explanation := "identity and access management", isActive := true }

/-- A question whose correct option is index 1. -/
def qTwo : Question :=
  { id := "q2", topicId := "iam", text := "Pick one"
    options := ["x", "y"], correctAnswer := 1
    explanation := "because", isActive := true }

/-- The initial demo store: one topic, two questions, nothing else. -/
def store0 : Store :=
  { topics := [topicIam], questions := [qOne, qTwo]
    sessions := [], userAnswers := [], progress := [], nextId := 0 }

/-- Demo run: start a session, answer `q1` correctly, complete.  The
stored progress row then has `bestScore = 100`. -/
def c1FirstRun : Store :=
  (completeQuiz (submitAnswer (startQuiz store0 "u" "iam" 0).2
      "u" "q1" 0 2 none 1).2 "u" 0 2).2

/-- Demo run continued: start a fresh session on the same topic, answer
`q1` wrongly, complete again with score 0. -/
def c1SecondRun : Store :=
  (completeQuiz (submitAnswer (startQuiz c1FirstRun "u" "iam" 3).2
      "u" "q1" 2 0 none 4).2 "u" 2 5).2

/-- C1: the claim says the stored `bestScore` is monotonically
non-decreasing across completions (`max(existing, new)`).  The complete
route passes `bestScore: score` and `upsertUserProgress` overwrites every
field, so a second, worse completion lowers the stored value: after a
100-score completion and then a 0-score completion for the same
(user, topic), the row holds 0, not 100. -/
theorem bestScore_overwritten_downward :
    (Store.getTopicProgress c1FirstRun "u" "iam").map UserProgress.bestScore
      = some (JsNum.int 100) ∧
    (Store.getTopicProgress c1SecondRun "u" "iam").map UserProgress.bestScore
      = some (JsNum.int 0) := by decide

/-- A store holding one active session with no recorded answers. -/
def c2Store : Store :=
  { topics := [topicIam], questions := [qOne, qTwo]
    sessions := [{ id := 0, userId := "u", topicId := "iam"
                   currentQuestionIndex := 0, answers := []
                   startedAt := 0, completedAt := none, score := none
                   isActive := true }]
    userAnswers := [], progress := [], nextId := 1 }

/-- C2: the claim says completing a session with zero recorded answers
returns a defined error or a defined score of 0.  The route computes
`Math.round((0 / 0) * 100)`, which is `NaN`: the response is a success
(not the NotFound error), its score is `NaN`, and it is not 0. -/
theorem completeQuiz_zero_answers_nan :
    (completeQuiz c2Store "u" 0 9).1.score = some JsNum.nan ∧
    (completeQuiz c2Store "u" 0 9).1 ≠ CompleteResult.sessionNotFound ∧
    (completeQuiz c2Store "u" 0 9).1.score ≠ some (JsNum.int 0) := by decide

/-- C3: the claim says starting a quiz with a topicId that references no
existing topic signals NotFound and creates no session.  The start route
never looks the topic up: with topicId `"missing"` (absent from the
store) it creates and returns a brand-new session row. -/
theorem startQuiz_skips_topic_check :
    Store.getTopic store0 "missing" = none ∧
    (startQuiz store0 "u" "missing" 7).1
      = StartResult.created
          { id := 0, userId := "u", topicId := "missing"
            currentQuestionIndex := 0, answers := []
            startedAt := 7, completedAt := none, score := none
            isActive := true } ∧
    ((startQuiz store0 "u" "missing" 7).2).sessions.length
      = store0.sessions.length + 1 := by decide

/-- C6: the submit route derives `isCorrect` as
`selectedAnswer === question.correctAnswer`: matching the correct index
yields `true`, any other index `false`, and the inserted `UserAnswer` row
carries the same boolean. -/
theorem submitAnswer_isCorrect_derivation (s : Store) (u qid : String)
    (sid sel : Nat) (ts : Option Nat) (now : Nat) (q : Question)
    (hq : s.getQuestion qid = some q) :
    (submitAnswer s u qid sid sel ts now).1.isCorrect
      = some (sel == q.correctAnswer) ∧
    ((submitAnswer s u qid sid sel ts now).1.isCorrect = some true
      ↔ sel = q.correctAnswer) ∧
    ((submitAnswer s u qid sid sel ts now).2).userAnswers
      = s.userAnswers ++
        [{ userId := u, questionId := qid, sessionId := sid
           selectedAnswer := sel, isCorrect := sel == q.correctAnswer
           timeSpent := ts.getD 0, answeredAt := now }] := by
  unfold submitAnswer
  rw [hq]
  refine ⟨rfl, ?_, rfl⟩
  simp [SubmitResult.isCorrect]

/-- Witness for C6: in the demo store, submitting index 2 on `q1`
(correct index 2) is judged correct, submitting index 0 is not. -/
theorem submitAnswer_isCorrect_derivation_witness :
    (submitAnswer store0 "u" "q1" 0 2 none 1).1.isCorrect = some true ∧
    (submitAnswer store0 "u" "q1" 0 0 none 1).1.isCorrect = some false :=
  ⟨(submitAnswer_isCorrect_derivation store0 "u" "q1" 0 2 none 1 qOne
      (by decide)).2.1.mpr (by decide),
   ((submitAnswer_isCorrect_derivation store0 "u" "q1" 0 0 none 1 qOne
      (by decide)).1).trans (by decide)⟩

/-- C8: every question object in the question-list response has its
`correctAnswer` and `explanation` fields undefined, for any contents of
the question store. -/
theorem listQuestions_strips_sensitive (s : Store) (topicId : String)
    (r : QuestionResponse) (hr : r ∈ listQuestions s topicId) :
    r.correctAnswer = none ∧ r.explanation = none := by
  rcases List.mem_map.mp hr with ⟨q, _, rfl⟩
  exact ⟨rfl, rfl⟩

/-- Witness for C8: the demo store's `iam` question list contains the
sanitized image of `q1`, and its sensitive fields are undefined. -/
theorem listQuestions_strips_sensitive_witness :
    ({ id := "q1", topicId := "iam", text := "What is IAM?"
       options := ["a", "b", "c"], correctAnswer := none
       explanation := none, isActive := true } : QuestionResponse).correctAnswer
        = none ∧
    ({ id := "q1", topicId := "iam", text := "What is IAM?"
       options := ["a", "b", "c"], correctAnswer := none
       explanation := none, isActive := true } : QuestionResponse).explanation
        = none :=
  listQuestions_strips_sensitive store0 "iam" _ (by decide)

/-- Any row of the progress table after an upsert either was already
there or carries the upserted certification id. -/
theorem mem_upsertUserProgress (s : Store) (p : InsertUserProgress)
    (r : UserProgress) (hr : r ∈ (s.upsertUserProgress p).progress) :
    r ∈ s.progress ∨ r.certificationId = p.certificationId := by
  unfold Store.upsertUserProgress at hr
  cases hfind : s.getTopicProgress p.userId p.topicId with
  | some existing =>
      rw [hfind] at hr
      simp only [List.mem_map] at hr
      rcases hr with ⟨x, hx, rfl⟩
      by_cases h : (x.id == existing.id) = true
      · simp only [h, if_true]
        exact Or.inr rfl
      · simp only [h, if_false]
        exact Or.inl hx
  | none =>
      rw [hfind] at hr
      simp only [List.mem_append, List.mem_singleton] at hr
      rcases hr with hr | rfl
      · exact Or.inl hr
      · exact Or.inr rfl

/-- C10: every progress row the complete route writes (inserted or
overwritten) has certification id `'aws-cloud-practitioner'` — the
topic's real certification is never consulted — and consequently, for
any other certification id, the progress listing after a completion
contains no row that was not already listed before it. -/
theorem completeQuiz_hardcodes_certification (s : Store) (u : String)
    (sid now : Nat) :
    (∀ r ∈ ((completeQuiz s u sid now).2).progress,
        r ∈ s.progress ∨ r.certificationId = "aws-cloud-practitioner") ∧
    (∀ c, c ≠ "aws-cloud-practitioner" → ∀ v r,
        r ∈ Store.getUserProgress ((completeQuiz s u sid now).2) v c →
        r ∈ Store.getUserProgress s v c) := by
  have key : ∀ r ∈ ((completeQuiz s u sid now).2).progress,
      r ∈ s.progress ∨ r.certificationId = "aws-cloud-practitioner" := by
    intro r hr
    unfold completeQuiz at hr
    dsimp only at hr
    split at hr
    · exact Or.inl hr
    · exact mem_upsertUserProgress _ _ r hr
  refine ⟨key, ?_⟩
  intro c hc v r hrm
  rw [Store.getUserProgress, List.mem_filter] at hrm
  rcases hrm with ⟨hmem, hpred⟩
  rcases key r hmem with hold | hcert
  · exact List.mem_filter.mpr ⟨hold, hpred⟩
  · exfalso
    apply hc
    have : r.certificationId = c := by
      have := (Bool.and_eq_true _ _).mp hpred
      exact eq_of_beq this.2
    rw [← this, hcert]

/-- The store just before the completion analysed in the C10 witness:
one active session on topic `iam` (a topic of certification
`aws-solutions-architect`) with one correct answer recorded, and no
progress rows. -/
def c10Pre : Store :=
  { topics := [topicIam], questions := [qOne, qTwo]
    sessions := [{ id := 0, userId := "u", topicId := "iam"
                   currentQuestionIndex := 1, answers := []
                   startedAt := 0, completedAt := none, score := none
                   isActive := true }]
    userAnswers := [{ userId := "u", questionId := "q1", sessionId := 0
                      selectedAnswer := 2, isCorrect := true
                      timeSpent := 10, answeredAt := 1 }]
    progress := [], nextId := 1 }

/-- The progress row that completing the `c10Pre` session writes. -/
def c10Row : UserProgress :=
  { id := 1, userId := "u", certificationId := "aws-cloud-practitioner"
    topicId := "iam", totalQuestions := 1, completedQuestions := 1
    correctAnswers := 1, bestScore := JsNum.int 100, lastQuestionIndex := 1
    isCompleted := true, timeSpent := 10 }

/-- Witness for C10: completing the `iam` session writes `c10Row` to the
progress table, yet the progress listing for `aws-solutions-architect` —
the certification `iam` actually belongs to — does not contain it,
because the row was recorded under the hardcoded
`'aws-cloud-practitioner'`. -/
theorem completeQuiz_hardcodes_certification_witness :
    c10Row ∈ ((completeQuiz c10Pre "u" 0 2).2).progress ∧
    c10Row ∉ Store.getUserProgress ((completeQuiz c10Pre "u" 0 2).2)
        "u" "aws-solutions-architect" :=
  ⟨by decide,
   fun hmem => absurd
     ((completeQuiz_hardcodes_certification c10Pre "u" 0 2).2
        "aws-solutions-architect" (by decide) "u" c10Row hmem)
     (by decide)⟩

/-- `find?` succeeds on any list containing an element satisfying the
predicate. -/
theorem find?_isSome_of_mem {α : Type} (p : α → Bool) (l : List α) (a : α)
    (ha : a ∈ l) (hp : p a = true) : (l.find? p).isSome = true := by
  induction l with
  | nil => cases ha
  | cons x xs ih =>
    rcases List.mem_cons.mp ha with rfl | hmem
    · rw [List.find?_cons_of_pos _ hp]; rfl
    · by_cases hx : p x = true
      · rw [List.find?_cons_of_pos _ hx]; rfl
      · rw [List.find?_cons_of_neg _ (by simpa using hx)]
        exact ih hmem

/-- The integer-division form `(200*c + t) / (2*t)` used in the embedding
of `Math.round((c / t) * 100)` agrees with rounding the exact rational
`100*c/t` half up (Mathlib's `round`). -/
theorem jsRoundPct_eq_round (c t : Nat) (ht : t ≠ 0) :
    jsRoundPct c t = JsNum.int (round ((100 * c : ℚ) / t)).toNat := by
  unfold jsRoundPct
  rw [if_neg ht]
  congr 1
  have key : (100 * (c : ℚ)) / t + 1 / 2
      = ((200 * c + t : ℕ) : ℚ) / ((2 * t : ℕ) : ℚ) := by
    have ht' : (t : ℚ) ≠ 0 := Nat.cast_ne_zero.mpr ht
    push_cast
    field_simp
    ring
  rw [round_eq, key, Int.floor_toNat, Nat.floor_div_eq_div]

/-- Completing a session whose id is present among the session rows
yields a row from the update (`returning()[0]` is defined). -/
theorem completeQuizSession_isSome (s : Store) (sid : Nat) (sc : JsNum) (now : Nat)
    (h : ∃ row ∈ s.sessions, row.id = sid) :
    ((s.completeQuizSession sid sc now).1).isSome = true := by
  rcases h with ⟨row, hrow, hid⟩
  unfold Store.completeQuizSession
  dsimp only
  apply find?_isSome_of_mem _ _
    (if row.id == sid then
      { row with completedAt := some now, score := some sc, isActive := false }
     else row)
  · exact List.mem_map_of_mem _ hrow
  · simp [hid]

/-- C7: on a session with at least one recorded answer, the complete
route reports `totalQuestions` = the number of the session's answer rows,
`correctCount` = the number of those with `isCorrect`, and `score` =
`round(100 * correctCount / totalQuestions)` (rounding half up, i.e.
JavaScript `Math.round`). -/
theorem completeQuiz_score_formula (s : Store) (u : String) (sid now : Nat)
    (hsess : ∃ row ∈ s.sessions, row.id = sid)
    (hne : s.getUserAnswers sid ≠ []) :
    (completeQuiz s u sid now).1.totalQuestions
      = some (s.getUserAnswers sid).length ∧
    (completeQuiz s u sid now).1.correctCount
      = some ((s.getUserAnswers sid).filter (fun a => a.isCorrect)).length ∧
    (completeQuiz s u sid now).1.score
      = some (JsNum.int (round ((100 *
          ((((s.getUserAnswers sid).filter (fun a => a.isCorrect)).length : ℚ))) /
          ((s.getUserAnswers sid).length : ℚ))).toNat) := by
  have hlen : (s.getUserAnswers sid).length ≠ 0 :=
    fun h => hne (List.length_eq_zero.mp h)
  have hsome := completeQuizSession_isSome s sid
    (jsRoundPct ((s.getUserAnswers sid).filter (fun a => a.isCorrect)).length
      (s.getUserAnswers sid).length) now hsess
  obtain ⟨sess, hfind⟩ := Option.isSome_iff_exists.mp hsome
  unfold completeQuiz
  dsimp only
  rw [hfind]
  refine ⟨rfl, rfl, ?_⟩
  dsimp [CompleteResult.score]
  rw [jsRoundPct_eq_round _ _ hlen]

/-- A recorded answer row of the C7 witness session. -/
def mkAns (qid : String) (sel : Nat) (ok : Bool) (answeredAt : Nat) : UserAnswer :=
  { userId := "u", questionId := qid, sessionId := 0, selectedAnswer := sel
    isCorrect := ok, timeSpent := 10, answeredAt := answeredAt }

/-- A store holding one active session with four recorded answers, three
of them correct. -/
def c7Store : Store :=
  { topics := [topicIam], questions := [qOne, qTwo]
    sessions := [{ id := 0, userId := "u", topicId := "iam"
                   currentQuestionIndex := 4, answers := []
                   startedAt := 0, completedAt := none, score := none
                   isActive := true }]
    userAnswers := [mkAns "q1" 2 true 1, mkAns "q2" 1 true 2,
                    mkAns "q1" 2 true 3, mkAns "q2" 0 false 4]
    progress := [], nextId := 1 }

/-- Witness for C7: a session with 4 answers, 3 correct, completes with
score 75. -/
theorem completeQuiz_score_formula_witness :
    (completeQuiz c7Store "u" 0 9).1.score = some (JsNum.int 75) := by
  have h := (completeQuiz_score_formula c7Store "u" 0 9 (by decide) (by decide)).2.2
  rw [h]
  have h4 : (c7Store.getUserAnswers 0).length = 4 := by decide
  have h3 : ((c7Store.getUserAnswers 0).filter (fun a => a.isCorrect)).length = 3 := by
    decide
  rw [h4, h3]
  norm_num [round_eq]
  decide

/-- `latestBy` of a non-empty list is defined. -/
theorem latestBy_ne_none (a : QuizSession) (l : List QuizSession) :
    Store.latestBy (a :: l) ≠ none := by
  simp [Store.latestBy]

/-- When no active session is found for a pair, no session row matches
the active-session predicate at all. -/
theorem filter_eq_nil_of_getActive_none (s : Store) (u t : String)
    (h : s.getActiveQuizSession u t = none) :
    s.sessions.filter (fun q => q.userId == u && q.topicId == t && q.isActive) = [] := by
  unfold Store.getActiveQuizSession at h
  cases hf : s.sessions.filter (fun q => q.userId == u && q.topicId == t && q.isActive) with
  | nil => rfl
  | cons a as => rw [hf] at h; exact absurd h (latestBy_ne_none a as)

/-- C4: the start route is idempotent while a session is active: an
existing active session for `(userId, topicId)` is returned unchanged and
nothing is written; hence two starts with no intervening completion
return the same session id, leave the second call's store equal to the
first call's, and (when no session was active to begin with) create
exactly one durable session row. -/
theorem startQuiz_idempotent (s : Store) (u t : String) (n1 n2 : Nat) :
    (∀ e, s.getActiveQuizSession u t = some e →
        startQuiz s u t n1 = (StartResult.resumed e, s)) ∧
    ((startQuiz (startQuiz s u t n1).2 u t n2).1).session.id
        = ((startQuiz s u t n1).1).session.id ∧
    ((startQuiz (startQuiz s u t n1).2 u t n2).2).sessions
        = ((startQuiz s u t n1).2).sessions ∧
    (s.getActiveQuizSession u t = none →
        ((startQuiz s u t n1).2).sessions.length = s.sessions.length + 1) := by
  cases hact : s.getActiveQuizSession u t with
  | some e =>
      have h1 : startQuiz s u t n1 = (StartResult.resumed e, s) := by
        unfold startQuiz; rw [hact]
      have h2 : startQuiz s u t n2 = (StartResult.resumed e, s) := by
        unfold startQuiz; rw [hact]
      refine ⟨?_, ?_, ?_, ?_⟩
      · intro e' he'
        cases he'
        exact h1
      · rw [h1, h2]
      · rw [h1, h2]
      · intro hnone; cases hnone
  | none =>
      have h1 : startQuiz s u t n1
          = (StartResult.created (s.createQuizSession u t n1).1,
             (s.createQuizSession u t n1).2) := by
        unfold startQuiz; rw [hact]
      have hact2 : ((s.createQuizSession u t n1).2).getActiveQuizSession u t
          = some (s.createQuizSession u t n1).1 := by
        unfold Store.getActiveQuizSession Store.createQuizSession
        dsimp only
        rw [List.filter_append, filter_eq_nil_of_getActive_none s u t hact]
        simp [Store.latestBy, Store.newSessionRow]
      have h2 : startQuiz (s.createQuizSession u t n1).2 u t n2
          = (StartResult.resumed (s.createQuizSession u t n1).1,
             (s.createQuizSession u t n1).2) := by
        unfold startQuiz; rw [hact2]
      refine ⟨?_, ?_, ?_, ?_⟩
      · intro e' he'; cases he'
      · rw [h1]; dsimp only; rw [h2]; rfl
      · rw [h1]; dsimp only; rw [h2]
      · intro _
        rw [h1]
        unfold Store.createQuizSession
        simp

/-- Witness for C4: starting twice on the fresh demo store returns the
same session id both times and creates exactly one session row. -/
theorem startQuiz_idempotent_witness :
    ((startQuiz (startQuiz store0 "u" "iam" 0).2 "u" "iam" 1).1).session.id
      = ((startQuiz store0 "u" "iam" 0).1).session.id ∧
    ((startQuiz store0 "u" "iam" 0).2).sessions.length
      = store0.sessions.length + 1 :=
  ⟨(startQuiz_idempotent store0 "u" "iam" 0 1).2.1,
   (startQuiz_idempotent store0 "u" "iam" 0 1).2.2.2 (by decide)⟩

/-- The request-supplied arguments of one submit call on a fixed
session. -/
structure SubmitCall where
  questionId : String
  selectedAnswer : Nat
  timeSpent : Option Nat
  now : Nat
deriving DecidableEq, Repr

/-- Run a sequence of submit calls for one user on one session. -/
def runSubmits (u : String) (sid : Nat) : Store → List SubmitCall → Store
  | s, [] => s
  | s, c :: cs =>
      runSubmits u sid
        (submitAnswer s u c.questionId sid c.selectedAnswer c.timeSpent c.now).2 cs

/-- The number of `UserAnswer` rows recorded for a session. -/
def countAnswers (s : Store) (sid : Nat) : Nat := (s.getUserAnswers sid).length

/-- The answer count ignores the `answeredAt` ordering. -/
theorem countAnswers_eq_filter_length (s : Store) (sid : Nat) :
    countAnswers s sid
      = (s.userAnswers.filter (fun a => a.sessionId == sid)).length := by
  unfold countAnswers Store.getUserAnswers
  exact (List.perm_insertionSort _ _).length_eq

/-- Question lookup only reads the questions table. -/
theorem getQuestion_congr (s s' : Store) (h : s'.questions = s.questions)
    (x : String) : s'.getQuestion x = s.getQuestion x := by
  unfold Store.getQuestion
  rw [h]

/-- One successful submit appends exactly one answer row for the session,
leaves the questions table alone, sets the cursor of every row of the
session id to the new answer count, and keeps every session row (by
id). -/
theorem submitAnswer_step (s : Store) (u qid : String) (sid sel : Nat)
    (ts : Option Nat) (now : Nat) (hq : (s.getQuestion qid).isSome = true) :
    countAnswers (submitAnswer s u qid sid sel ts now).2 sid
        = countAnswers s sid + 1 ∧
    ((submitAnswer s u qid sid sel ts now).2).questions = s.questions ∧
    (∀ row ∈ ((submitAnswer s u qid sid sel ts now).2).sessions, row.id = sid →
        row.currentQuestionIndex
          = countAnswers (submitAnswer s u qid sid sel ts now).2 sid) ∧
    (∀ row ∈ s.sessions,
        ∃ row' ∈ ((submitAnswer s u qid sid sel ts now).2).sessions,
          row'.id = row.id) := by
  obtain ⟨q, hq'⟩ := Option.isSome_iff_exists.mp hq
  unfold submitAnswer
  rw [hq']
  dsimp only [Store.saveUserAnswer, Store.updateQuizSession]
  refine ⟨?_, rfl, ?_, ?_⟩
  · rw [countAnswers_eq_filter_length, countAnswers_eq_filter_length]
    simp [List.filter_append]
  · intro row hrow hid
    rcases List.mem_map.mp hrow with ⟨x, hx, rfl⟩
    by_cases hxid : (x.id == sid) = true
    · rw [if_pos hxid]
      rfl
    · rw [if_neg hxid] at hid
      exact absurd (by simp [hid]) hxid
  · intro row hrow
    refine ⟨_, List.mem_map_of_mem _ hrow, ?_⟩
    by_cases hxid : (row.id == sid) = true
    · rw [if_pos hxid]
    · rw [if_neg hxid]

/-- A sequence of successful submits grows the session's answer count by
its length and, once non-empty, leaves the cursor of the session's rows
equal to the answer count. -/
theorem runSubmits_spec (u : String) (sid : Nat) :
    ∀ (calls : List SubmitCall) (s : Store),
      (∀ c ∈ calls, (s.getQuestion c.questionId).isSome = true) →
      (∃ row ∈ s.sessions, row.id = sid) →
      countAnswers (runSubmits u sid s calls) sid
          = countAnswers s sid + calls.length ∧
      (runSubmits u sid s calls).questions = s.questions ∧
      (∃ row ∈ (runSubmits u sid s calls).sessions, row.id = sid) ∧
      (calls ≠ [] → ∀ row ∈ (runSubmits u sid s calls).sessions, row.id = sid →
          row.currentQuestionIndex = countAnswers (runSubmits u sid s calls) sid) := by
  intro calls
  induction calls with
  | nil =>
      intro s _ hsess
      exact ⟨by simp [runSubmits], rfl, hsess, fun h => absurd rfl h⟩
  | cons c cs ih =>
      intro s hq hsess
      have hqc : (s.getQuestion c.questionId).isSome = true :=
        hq c (List.mem_cons_self c cs)
      have step := submitAnswer_step s u c.questionId sid c.selectedAnswer
        c.timeSpent c.now hqc
      set s1 := (submitAnswer s u c.questionId sid c.selectedAnswer
        c.timeSpent c.now).2 with hs1
      have hq1 : ∀ x ∈ cs, (s1.getQuestion x.questionId).isSome = true := by
        intro x hx
        rw [getQuestion_congr s s1 step.2.1]
        exact hq x (List.mem_cons_of_mem c hx)
      have hsess1 : ∃ row ∈ s1.sessions, row.id = sid := by
        rcases hsess with ⟨row, hrow, hid⟩
        rcases step.2.2.2 row hrow with ⟨row', hrow', hid'⟩
        exact ⟨row', hrow', hid'.trans hid⟩
      have hrun : runSubmits u sid s (c :: cs) = runSubmits u sid s1 cs := rfl
      have spec := ih s1 hq1 hsess1
      refine ⟨?_, ?_, ?_, ?_⟩
      · rw [hrun, spec.1, step.1]
        simp [Nat.add_assoc, Nat.add_comm 1 cs.length]
      · rw [hrun, spec.2.1, step.2.1]
      · rw [hrun]; exact spec.2.2.1
      · intro _ row hrow hid
        rw [hrun] at hrow ⊢
        cases cs with
        | nil =>
            have hrun0 : runSubmits u sid s1 [] = s1 := rfl
            rw [hrun0] at hrow ⊢
            exact step.2.2.1 row hrow hid
        | cons c2 cs' =>
            exact spec.2.2.2 (by simp) row hrow hid

/-- C5: after any non-empty sequence of N successful submit calls on one
session (any question order, repeats allowed), the session's stored
cursor equals N, which is the count of the session's recorded
`UserAnswer` rows. -/
theorem cursor_equals_answer_count (s : Store) (u : String) (sid : Nat)
    (calls : List SubmitCall)
    (hq : ∀ c ∈ calls, (s.getQuestion c.questionId).isSome = true)
    (hsess : ∃ row ∈ s.sessions, row.id = sid)
    (hzero : countAnswers s sid = 0)
    (hne : calls ≠ []) :
    countAnswers (runSubmits u sid s calls) sid = calls.length ∧
    (∀ row ∈ (runSubmits u sid s calls).sessions, row.id = sid →
        row.currentQuestionIndex = calls.length) ∧
    (∀ row ∈ (runSubmits u sid s calls).sessions, row.id = sid →
        row.currentQuestionIndex = countAnswers (runSubmits u sid s calls) sid) := by
  have spec := runSubmits_spec u sid calls s hq hsess
  have hcount : countAnswers (runSubmits u sid s calls) sid = calls.length := by
    rw [spec.1, hzero, Nat.zero_add]
  refine ⟨hcount, ?_, spec.2.2.2 hne⟩
  intro row hrow hid
  rw [spec.2.2.2 hne row hrow hid, hcount]

/-- Witness for C5: two submit calls (the same question twice) on the
answerless session of `c2Store` leave an answer count of 2. -/
theorem cursor_equals_answer_count_witness :
    countAnswers (runSubmits "u" 0 c2Store
      [⟨"q1", 2, none, 1⟩, ⟨"q1", 0, some 5, 2⟩]) 0 = 2 :=
  (cursor_equals_answer_count c2Store "u" 0
    [⟨"q1", 2, none, 1⟩, ⟨"q1", 0, some 5, 2⟩]
    (by decide) (by decide) (by decide) (by decide)).1

/-- The number of progress rows stored for a `(user, topic)` pair. -/
def countPair (s : Store) (u t : String) : Nat :=
  (s.progress.filter (fun r => r.userId == u && r.topicId == t)).length

/-- Well-formedness of the progress table: every row id was issued by the
id generator, and ids are pairwise distinct (database primary keys). -/
def ProgressWF (s : Store) : Prop :=
  (∀ r ∈ s.progress, r.id < s.nextId) ∧ (s.progress.map UserProgress.id).Nodup

/-- The §3 invariant: at most one progress row per `(user, topic)`. -/
def AtMostOnePerPair (s : Store) : Prop := ∀ u t, countPair s u t ≤ 1

/-- Run a sequence of progress upserts (one per completion). -/
def applyUpserts (s : Store) (ps : List InsertUserProgress) : Store :=
  ps.foldl Store.upsertUserProgress s

/-- Mapping a function that does not change whether elements satisfy the
predicate keeps the filtered length. -/
theorem length_filter_map_eq {α : Type} (l : List α) (f : α → α) (p : α → Bool)
    (h : ∀ x ∈ l, p (f x) = p x) :
    ((l.map f).filter p).length = (l.filter p).length := by
  induction l with
  | nil => rfl
  | cons x xs ih =>
      simp only [List.map_cons, List.filter_cons]
      rw [h x (List.mem_cons_self x xs)]
      have ih' := ih (fun y hy => h y (List.mem_cons_of_mem x hy))
      cases p x <;> simp [ih']

/-- The pair lookup fails exactly when no row for the pair is stored. -/
theorem getTopicProgress_eq_none_iff (s : Store) (u t : String) :
    s.getTopicProgress u t = none ↔ countPair s u t = 0 := by
  unfold Store.getTopicProgress countPair
  rw [List.find?_eq_none, List.length_eq_zero, List.filter_eq_nil_iff]

/-- One upsert preserves well-formedness and the at-most-one-row-per-pair
invariant: the insert branch adds a fresh-id row for a pair that had no
row, the update branch rewrites the matched row in place. -/
theorem upsert_preserves_inv (s : Store) (p : InsertUserProgress)
    (hwf : ProgressWF s) (hone : AtMostOnePerPair s) :
    ProgressWF (s.upsertUserProgress p) ∧ AtMostOnePerPair (s.upsertUserProgress p) := by
  unfold Store.upsertUserProgress
  cases hfind : s.getTopicProgress p.userId p.topicId with
  | none =>
      refine ⟨⟨?_, ?_⟩, ?_⟩
      · intro r hr
        dsimp only at hr ⊢
        rcases List.mem_append.mp hr with hr | hr
        · exact Nat.lt_succ_of_lt (hwf.1 r hr)
        · rw [List.mem_singleton.mp hr]
          exact Nat.lt_succ_self _
      · dsimp only
        rw [List.map_append]
        refine List.Nodup.append hwf.2 (List.nodup_singleton _) ?_
        intro a ha hb
        rcases List.mem_map.mp ha with ⟨r, hr, rfl⟩
        have hlt := hwf.1 r hr
        simp only [List.map_cons, List.map_nil, List.mem_singleton] at hb
        simp only [Store.applyProgress] at hb
        omega
      · intro u t
        unfold countPair
        dsimp only
        rw [List.filter_append, List.filter_singleton]
        by_cases hm : ((Store.applyProgress s.nextId p).userId == u
            && (Store.applyProgress s.nextId p).topicId == t) = true
        · have hmm := (Bool.and_eq_true _ _).mp hm
          have hu : p.userId = u := eq_of_beq hmm.1
          have ht : p.topicId = t := eq_of_beq hmm.2
          have hz : countPair s u t = 0 := by
            rw [← hu, ← ht]
            exact (getTopicProgress_eq_none_iff s p.userId p.topicId).mp hfind
          unfold countPair at hz
          rw [hm, cond_true, List.length_append, hz]
          simp
        · rw [Bool.not_eq_true] at hm
          rw [hm, cond_false, List.append_nil]
          exact hone u t
  | some existing =>
      unfold Store.getTopicProgress at hfind
      have hmem := List.mem_of_find?_eq_some hfind
      have hpred := List.find?_some hfind
      have hprs := (Bool.and_eq_true _ _).mp hpred
      have hu : existing.userId = p.userId := eq_of_beq hprs.1
      have ht : existing.topicId = p.topicId := eq_of_beq hprs.2
      have hidmap : ∀ x ∈ s.progress,
          (UserProgress.id (if x.id == existing.id
              then Store.applyProgress x.id p else x)) = UserProgress.id x := by
        intro x hx
        by_cases hxid : (x.id == existing.id) = true
        · rw [if_pos hxid]; rfl
        · rw [if_neg hxid]
      have hmapid : (s.progress.map (fun x => if x.id == existing.id
            then Store.applyProgress x.id p else x)).map UserProgress.id
          = s.progress.map UserProgress.id := by
        rw [List.map_map]
        exact List.map_congr_left hidmap
      refine ⟨⟨?_, ?_⟩, ?_⟩
      · intro r hr
        dsimp only at hr ⊢
        rcases List.mem_map.mp hr with ⟨x, hx, rfl⟩
        have hlt := hwf.1 x hx
        by_cases hxid : (x.id == existing.id) = true
        · rw [if_pos hxid]; exact hlt
        · rw [if_neg hxid]; exact hlt
      · dsimp only
        rw [hmapid]
        exact hwf.2
      · intro u t
        unfold countPair
        dsimp only
        rw [length_filter_map_eq]
        · exact hone u t
        · intro x hx
          by_cases hxid : (x.id == existing.id) = true
          · have hxe : x = existing := by
              apply List.inj_on_of_nodup_map hwf.2 hx hmem
              exact eq_of_beq hxid
            rw [if_pos hxid, hxe]
            show (p.userId == u && p.topicId == t)
                = (existing.userId == u && existing.topicId == t)
            rw [hu, ht]
          · rw [if_neg hxid]

/-- Any sequence of upserts preserves both invariants. -/
theorem applyUpserts_inv (ps : List InsertUserProgress) :
    ∀ s : Store, ProgressWF s → AtMostOnePerPair s →
      ProgressWF (applyUpserts s ps) ∧ AtMostOnePerPair (applyUpserts s ps) := by
  induction ps with
  | nil => exact fun s hwf hone => ⟨hwf, hone⟩
  | cons p ps ih =>
      intro s hwf hone
      have h := upsert_preserves_inv s p hwf hone
      exact ih _ h.1 h.2

/-- When the pair has no row yet, the upsert inserts exactly one row. -/
theorem upsert_creates (s : Store) (p : InsertUserProgress)
    (h : countPair s p.userId p.topicId = 0) :
    (s.upsertUserProgress p).progress.length = s.progress.length + 1 := by
  unfold Store.upsertUserProgress
  rw [(getTopicProgress_eq_none_iff s p.userId p.topicId).mpr h]
  simp

/-- When the pair already has a row, the upsert inserts nothing. -/
theorem upsert_updates (s : Store) (p : InsertUserProgress)
    (h : countPair s p.userId p.topicId ≠ 0) :
    (s.upsertUserProgress p).progress.length = s.progress.length := by
  unfold Store.upsertUserProgress
  cases hfind : s.getTopicProgress p.userId p.topicId with
  | none =>
      exact absurd ((getTopicProgress_eq_none_iff s p.userId p.topicId).mp hfind) h
  | some existing => simp

/-- C9: the progress upsert is create-if-absent, else update-in-place —
the first completion for a `(user, topic)` pair adds exactly one row,
later ones add none — and after any number of sequential completions the
store keeps at most one progress row per `(user, topic)` pair. -/
theorem upsert_at_most_one_row (s : Store) (p : InsertUserProgress)
    (ps : List InsertUserProgress)
    (hwf : ProgressWF s) (hone : AtMostOnePerPair s) :
    (countPair s p.userId p.topicId = 0 →
        (s.upsertUserProgress p).progress.length = s.progress.length + 1) ∧
    (countPair s p.userId p.topicId ≠ 0 →
        (s.upsertUserProgress p).progress.length = s.progress.length) ∧
    AtMostOnePerPair (applyUpserts s ps) :=
  ⟨upsert_creates s p, upsert_updates s p, (applyUpserts_inv ps s hwf hone).2⟩

/-- The progress values of a demo completion. -/
def demoInsert : InsertUserProgress :=
  { userId := "u", certificationId := "aws-cloud-practitioner", topicId := "iam"
    totalQuestions := 1, completedQuestions := 1, correctAnswers := 1
    bestScore := JsNum.int 100, lastQuestionIndex := 1
    isCompleted := true, timeSpent := 0 }

/-- Witness for C9: on the empty demo store the first upsert creates one
row and two successive upserts for the same pair leave at most one. -/
theorem upsert_at_most_one_row_witness :
    (store0.upsertUserProgress demoInsert).progress.length
        = store0.progress.length + 1 ∧
    countPair (applyUpserts store0 [demoInsert, demoInsert]) "u" "iam" ≤ 1 :=
  ⟨(upsert_at_most_one_row store0 demoInsert []
      ⟨by simp [store0], by simp [store0]⟩
      (fun u t => by simp [countPair, store0])).1 (by decide),
   (upsert_at_most_one_row store0 demoInsert [demoInsert, demoInsert]
      ⟨by simp [store0], by simp [store0]⟩
      (fun u t => by simp [countPair, store0])).2.2 "u" "iam"⟩
